import Mathlib

/-!
Formal model of the kernel exponential family estimator engine
(`src/shogun/distributions/kernel_exp_family/impl/Base.cpp`).

Matrices are modelled column-major, as in `SGMatrix`: `data` is the list of
columns, each a list of rationals.  `storageId` models the underlying buffer
pointer (`SGMatrix::matrix`): assignment of an `SGMatrix` shares the buffer,
so the aliasing check in `Base::is_test_equals_train_data` compares the raw
pointers; here it compares `storageId`.  Real (`float64_t`) arithmetic is
modelled by exact rational arithmetic.
-/

namespace KernelExpFamilyImpl

/-- Model of `SGMatrix<float64_t>`: buffer identity, the separately stored
dimension fields `num_rows`/`num_cols`, and the buffer contents (columns). -/
structure SGMatrix where
  storageId : Nat
  num_rows : Nat
  num_cols : Nat
  data : List (List ℚ)
deriving DecidableEq

/-- State of the kernel gateway (`kernel::Base`): its stored left and right
operand matrices and the precomputed cache, modelled as recording which
pair of operands the cache was computed for. -/
structure KernelState where
  klhs : SGMatrix
  krhs : SGMatrix
  cache : Option (SGMatrix × SGMatrix)
deriving DecidableEq

/-- Kernel gateway `set_lhs`: stores the left operand. -/
def KernelState.set_lhs (k : KernelState) (X : SGMatrix) : KernelState :=
  { k with klhs := X }

/-- Kernel gateway `set_rhs`: stores the right operand. -/
def KernelState.set_rhs (k : KernelState) (X : SGMatrix) : KernelState :=
  { k with krhs := X }

/-- Kernel gateway `precompute`: recomputes the cache for the current
operand pair. -/
def KernelState.precompute (k : KernelState) : KernelState :=
  { k with cache := some (k.klhs, k.krhs) }

/-- State of `kernel_exp_family_impl::Base`: training matrix `m_lhs`, test
matrix `m_rhs`, owned kernel, regularizer `m_lambda`, and the coefficient
vector `m_alpha_beta` (`none` before the first `fit()`). -/
structure BaseState where
  m_lhs : SGMatrix
  m_rhs : SGMatrix
  m_kernel : KernelState
  m_lambda : ℚ
  m_alpha_beta : Option (List ℚ)
deriving DecidableEq

/-- `Base::get_num_dimensions`: row count of the training matrix. -/
def get_num_dimensions (s : BaseState) : Nat := s.m_lhs.num_rows

/-- `Base::get_num_lhs`: column count of the training matrix. -/
def get_num_lhs (s : BaseState) : Nat := s.m_lhs.num_cols

/-- `Base::get_num_rhs`: column count of the test matrix. -/
def get_num_rhs (s : BaseState) : Nat := s.m_rhs.num_cols

/-- `Base::set_test_data(SGMatrix)`: store the new test matrix, push it into
the kernel as right operand, and precompute. -/
def set_test_data (s : BaseState) (X : SGMatrix) : BaseState :=
  { s with m_rhs := X, m_kernel := (s.m_kernel.set_rhs X).precompute }

/-- `Base::reset_test_data`: `set_test_data(m_lhs)`. -/
def reset_test_data (s : BaseState) : BaseState :=
  set_test_data s s.m_lhs

/-- `Base::is_test_equals_train_data`: same buffer and same dimensions,
with the early-return structure of the source. -/
def is_test_equals_train_data (s : BaseState) : Bool :=
  if s.m_lhs.storageId ≠ s.m_rhs.storageId then false
  else if s.m_lhs.num_rows ≠ s.m_rhs.num_rows then false
  else if s.m_lhs.num_cols ≠ s.m_rhs.num_cols then false
  else true

/-- `Base::Base(data, kernel, lambda)`: `m_lhs = m_rhs = data`, kernel gets
`data` as both operands and precomputes, `m_alpha_beta` unset. -/
def baseInit (data : SGMatrix) (kernel : KernelState) (lambda : ℚ) : BaseState :=
  { m_lhs := data
    m_rhs := data
    m_kernel := ((kernel.set_lhs data).set_rhs data).precompute
    m_lambda := lambda
    m_alpha_beta := none }

/-- A call that only touches test-data configuration: `set_test_data` with
some matrix, or `reset_test_data`. -/
inductive TestDataCall where
  | setData (X : SGMatrix) : TestDataCall
  | reset : TestDataCall
deriving DecidableEq

/-- Apply one test-data call to the estimator state. -/
def applyTestDataCall (s : BaseState) : TestDataCall → BaseState
  | .setData X => set_test_data s X
  | .reset => reset_test_data s

/-- Apply a sequence of test-data calls to the estimator state. -/
def applyTestDataCalls (calls : List TestDataCall) (s : BaseState) : BaseState :=
  calls.foldl applyTestDataCall s

/-- Modelled from the spec: the per-point hooks `build_system`, `log_pdf(i)`,
`grad(i)` and `hessian_diag(i)` are pure virtual in `Base` and implemented by
estimator subclasses that are not part of this excerpt.  Per the spec they
are pure functions of the estimator state (they read only the coefficient
vector, the kernel cache and the data matrices, and mutate nothing); the
fields below give the value each hook computes on a fitted estimator. -/
structure Hooks where
  build_system_val : BaseState → SGMatrix × List ℚ
  log_pdf_val : BaseState → Nat → ℚ
  grad_val : BaseState → Nat → List ℚ
  hessian_diag_val : BaseState → Nat → List ℚ

/-- Modelled from the spec: a per-point `log_pdf(i)` call on a subclass;
per spec section 7 a query before the first `fit()` fails fast with an
assertion (modelled as `none`) rather than returning a value. -/
def hook_log_pdf (h : Hooks) (s : BaseState) (i : Nat) : Option ℚ :=
  match s.m_alpha_beta with
  | none => none
  | some _ => some (h.log_pdf_val s i)

/-- Modelled from the spec: a per-point `grad(i)` call on a subclass, failing
fast (`none`) before the first `fit()`. -/
def hook_grad (h : Hooks) (s : BaseState) (i : Nat) : Option (List ℚ) :=
  match s.m_alpha_beta with
  | none => none
  | some _ => some (h.grad_val s i)

/-- Modelled from the spec: a per-point `hessian_diag(i)` call on a subclass,
failing fast (`none`) before the first `fit()`. -/
def hook_hessian_diag (h : Hooks) (s : BaseState) (i : Nat) : Option (List ℚ) :=
  match s.m_alpha_beta with
  | none => none
  | some _ => some (h.hessian_diag_val s i)

/-- A loop over the point indices in `sched` threading an accumulator, where
each iteration may abort (assertion failure inside a hook).  The batch
operations of `Base.cpp` are `for` loops of this shape; an OpenMP schedule
corresponds to running it on a permutation of `List.range N`. -/
def optFold {γ : Type} (G : γ → Nat → Option γ) (sched : List Nat) (acc : Option γ) :
    Option γ :=
  sched.foldl (fun a i => a.bind (fun x => G x i)) acc

/-- C `memcpy(dest, src, n)` on double buffers: the first `n` entries of
`src` overwrite the head of `dest`. -/
def memcpy (dest src : List ℚ) (n : Nat) : List ℚ :=
  src.take n ++ dest.drop n

/-- One iteration of the loop in the batch `Base::grad()`: compute `grad(i)`
into a temporary, then execute the line from the source
`memcpy(grad.vector, result.get_column_vector(i), D*sizeof(float64_t))`,
whose destination is the temporary and whose source is column `i` of the
result buffer.  The temporary is then dropped; the result columns are
returned as the loop left them. -/
def grad_batch_step (h : Hooks) (s : BaseState) (cols : List (List ℚ)) (i : Nat) :
    Option (List (List ℚ)) :=
  (hook_grad h s i).map (fun g =>
    let _written := memcpy g (cols.getD i []) (get_num_dimensions s)
    cols)

/-- The batch `Base::grad()` run on an index schedule `sched`.  The result
matrix is allocated uninitialized: `mem j r` is whatever the fresh buffer
holds at column `j`, row `r`. -/
def grad_batch_sched (h : Hooks) (s : BaseState) (mem : Nat → Nat → ℚ)
    (sched : List Nat) : Option (List (List ℚ)) :=
  let buf := (List.range (get_num_rhs s)).map
    (fun j => (List.range (get_num_dimensions s)).map (mem j))
  optFold (grad_batch_step h s) sched (some buf)

/-- The batch `Base::grad()`: the loop runs over `0, ..., N_test - 1`. -/
def grad_batch (h : Hooks) (s : BaseState) (mem : Nat → Nat → ℚ) :
    Option (List (List ℚ)) :=
  grad_batch_sched h s mem (List.range (get_num_rhs s))

/-- One iteration of the loop in the batch `Base::log_pdf()`:
`result[i] = log_pdf(i)`. -/
def log_pdf_batch_step (h : Hooks) (s : BaseState) (buf : List ℚ) (i : Nat) :
    Option (List ℚ) :=
  (hook_log_pdf h s i).map (fun v => buf.set i v)

/-- The batch `Base::log_pdf()` run on an index schedule `sched`, with
`mem` the contents of the freshly allocated (uninitialized) result vector. -/
def log_pdf_batch_sched (h : Hooks) (s : BaseState) (mem : Nat → ℚ)
    (sched : List Nat) : Option (List ℚ) :=
  optFold (log_pdf_batch_step h s) sched
    (some ((List.range (get_num_rhs s)).map mem))

/-- The batch `Base::log_pdf()`: the loop runs over `0, ..., N_test - 1`. -/
def log_pdf_batch (h : Hooks) (s : BaseState) (mem : Nat → ℚ) : Option (List ℚ) :=
  log_pdf_batch_sched h s mem (List.range (get_num_rhs s))

/-- Squared Euclidean norm of a coefficient list
(the Eigen `squaredNorm`). -/
def sqNorm (v : List ℚ) : ℚ := (v.map (fun a => a * a)).sum

/-- One iteration of the loop in `Base::objective()`: evaluate `grad(i)` and
`hessian_diag(i)` (each mapped over the first `D` entries, as the `Map<VectorXd>(-, D)` in the source does) and add `0.5 * squaredNorm` and the Hessian
diagonal sum to the accumulator. -/
def objective_step (h : Hooks) (s : BaseState) (acc : ℚ) (i : Nat) : Option ℚ :=
  (hook_grad h s i).bind (fun gradient =>
    (hook_hessian_diag h s i).map (fun hd =>
      acc + (1 / 2) * sqNorm (gradient.take (get_num_dimensions s))
        + (hd.take (get_num_dimensions s)).sum))

/-- `Base::objective()` run on an index schedule `sched`: the reduction over
test points followed by division by `N_test` — with no guard on
`N_test = 0`. -/
def objective_sched (h : Hooks) (s : BaseState) (sched : List Nat) : Option ℚ :=
  (optFold (objective_step h s) sched (some 0)).map
    (fun t => t / (get_num_rhs s : ℚ))

/-- `Base::objective()`: the reduction loop runs over `0, ..., N_test - 1`. -/
def objective (h : Hooks) (s : BaseState) : Option ℚ :=
  objective_sched h s (List.range (get_num_rhs s))

/-- `Base::solve_and_store(A, b)`: allocate `m_alpha_beta` of length
`b.vlen` and assign the solution produced by the solver into it through a
fixed-size Eigen map; the assignment is well-formed (models the Eigen size
assertion)
only when the solution length matches the allocated length. -/
def solve_and_store (solver : SGMatrix → List ℚ → List ℚ) (A : SGMatrix)
    (b : List ℚ) (s : BaseState) : Option BaseState :=
  let x := solver A b
  if x.length = b.length then some { s with m_alpha_beta := some x } else none

/-- `Base::fit()`: build the system via the subclass hook, then solve and
store the coefficients. -/
def fit (solver : SGMatrix → List ℚ → List ℚ) (h : Hooks) (s : BaseState) :
    Option BaseState :=
  let Ab := h.build_system_val s
  solve_and_store solver Ab.1 Ab.2 s

/-- Matrix-vector product for the column-major matrix model:
`(A x)_r = sum_j A[r][j] * x[j]`. -/
def mulVec (A : SGMatrix) (x : List ℚ) : List ℚ :=
  (List.range A.num_rows).map
    (fun r => (List.zipWith (fun col xj => col.getD r 0 * xj) A.data x).sum)

/-- Entry-wise difference of two coefficient lists. -/
def subv (v w : List ℚ) : List ℚ := List.zipWith (fun a b => a - b) v w

/-- Squared residual of a candidate solution of `A x = b`. -/
def residualSq (A : SGMatrix) (b x : List ℚ) : ℚ := sqNorm (subv (mulVec A x) b)

/-- Follows the words of the spec: `x` is a least-squares solution of `A x = b`
(of the right length, minimizing the squared residual). -/
def IsLeastSquaresSol (A : SGMatrix) (b x : List ℚ) : Prop :=
  x.length = A.num_cols ∧
  ∀ y : List ℚ, y.length = A.num_cols → residualSq A b x ≤ residualSq A b y

/-- Follows the words of the spec: `x` is the minimum-norm least-squares solution
of `A x = b`, which is what the spec says the thin-SVD solve
(`alpha_beta = pinv(A) b`) produces. -/
def IsMinNormLeastSquaresSol (A : SGMatrix) (b x : List ℚ) : Prop :=
  IsLeastSquaresSol A b x ∧
  ∀ y : List ℚ, IsLeastSquaresSol A b y → sqNorm x ≤ sqNorm y

theorem optFold_none {γ : Type} (G : γ → Nat → Option γ) (sched : List Nat) :
    optFold G sched none = none := by
  induction sched with
  | nil => rfl
  | cons i rest ih => exact ih

theorem optFold_cons {γ : Type} (G : γ → Nat → Option γ) (i : Nat)
    (rest : List Nat) (acc : Option γ) :
    optFold G (i :: rest) acc = optFold G rest (acc.bind (fun x => G x i)) := rfl

theorem optFold_total {γ : Type} (G : γ → Nat → Option γ) (g : γ → Nat → γ)
    (hG : ∀ x i, G x i = some (g x i)) :
    ∀ (sched : List Nat) (x : γ),
      optFold G sched (some x) = some (sched.foldl g x) := by
  intro sched
  induction sched with
  | nil => intro x; rfl
  | cons i rest ih =>
    intro x
    rw [optFold_cons]
    simp only [Option.some_bind, hG]
    exact ih (g x i)

theorem foldl_set_getElem (f : Nat → ℚ) :
    ∀ (sched : List Nat) (buf : List ℚ) (j : Nat),
      (sched.foldl (fun b i => b.set i (f i)) buf)[j]? =
        if j ∈ sched ∧ j < buf.length then some (f j) else buf[j]? := by
  intro sched
  induction sched with
  | nil => intro buf j; simp
  | cons i rest ih =>
    intro buf j
    rw [List.foldl_cons, ih]
    simp only [List.length_set, List.mem_cons]
    rcases Nat.lt_or_ge j buf.length with hjl | hjl
    · by_cases hjr : j ∈ rest
      · simp [hjr, hjl]
      · by_cases hij : i = j
        · subst hij
          simp [hjr, hjl, List.getElem?_set]
        · have hji : ¬ j = i := fun hh => hij hh.symm
          simp [hjr, hjl, hij, hji, List.getElem?_set]
    · have hnl : ¬ j < buf.length := Nat.not_lt.mpr hjl
      have hnone : buf[j]? = none := List.getElem?_eq_none hjl
      by_cases hjr : j ∈ rest <;> by_cases hij : i = j <;>
        simp [hjr, hij, hnl, hnone, List.getElem?_set, Nat.not_lt.mpr hjl]

theorem foldl_set_of_perm (f : Nat → ℚ) (mem : Nat → ℚ) (N : Nat)
    (sched : List Nat) (hperm : sched.Perm (List.range N)) :
    sched.foldl (fun b i => b.set i (f i)) ((List.range N).map mem) =
      (List.range N).map f := by
  apply List.ext_getElem?
  intro j
  rw [foldl_set_getElem]
  have hlen : ((List.range N).map mem).length = N := by simp
  by_cases hj : j < N
  · have hmem : j ∈ sched := hperm.mem_iff.mpr (List.mem_range.mpr hj)
    simp [hmem, hlen, hj, List.getElem?_range hj]
  · have hge : N ≤ j := Nat.not_lt.mp hj
    have h1 : ((List.range N).map mem)[j]? = none :=
      List.getElem?_eq_none (by simpa using hge)
    have h2 : ((List.range N).map f)[j]? = none :=
      List.getElem?_eq_none (by simpa using hge)
    simp [hlen, hj, h1, h2]

theorem foldl_add_eq_sum (f : Nat → ℚ) :
    ∀ (l : List Nat) (c : ℚ),
      l.foldl (fun a i => a + f i) c = c + (l.map f).sum := by
  intro l
  induction l with
  | nil => intro c; simp
  | cons i rest ih =>
    intro c
    rw [List.foldl_cons, ih]
    simp [add_assoc]

theorem sum_map_range_eq (f : Nat → ℚ) (n : Nat) :
    ((List.range n).map f).sum = ∑ i in Finset.range n, f i := by
  induction n with
  | zero => simp
  | succ m ih =>
    rw [List.range_succ, List.map_append, List.sum_append, Finset.sum_range_succ, ih]
    simp

theorem sqNorm_nonneg (v : List ℚ) : 0 ≤ sqNorm v := by
  apply List.sum_nonneg
  intro x hx
  simp only [List.mem_map] at hx
  obtain ⟨a, _, rfl⟩ := hx
  exact mul_self_nonneg a

/-- Claim C4: `is_test_equals_train_data` is true iff the two matrices share
storage and have equal row and column counts; it is true right after
construction and after `reset_test_data`, and false after `set_test_data`
with a freshly allocated matrix (distinct buffer), regardless of values. -/
theorem is_test_equals_train_spec :
    (∀ s : BaseState, is_test_equals_train_data s = true ↔
      (s.m_lhs.storageId = s.m_rhs.storageId ∧
       s.m_lhs.num_rows = s.m_rhs.num_rows ∧
       s.m_lhs.num_cols = s.m_rhs.num_cols)) ∧
    (∀ (data : SGMatrix) (kernel : KernelState) (lambda : ℚ),
      is_test_equals_train_data (baseInit data kernel lambda) = true) ∧
    (∀ s : BaseState, is_test_equals_train_data (reset_test_data s) = true) ∧
    (∀ (s : BaseState) (X : SGMatrix), X.storageId ≠ s.m_lhs.storageId →
      is_test_equals_train_data (set_test_data s X) = false) := by
  refine ⟨?_, ?_, ?_, ?_⟩
  · intro s
    simp only [is_test_equals_train_data]
    split
    · simp_all
    · split
      · simp_all
      · split
        · simp_all
        · simp_all
  · intro data kernel lambda
    simp [is_test_equals_train_data, baseInit]
  · intro s
    simp [is_test_equals_train_data, reset_test_data, set_test_data]
  · intro s X h
    simp [is_test_equals_train_data, set_test_data]
    intro h2
    exact absurd h2.symm h

/-- Concrete 1-by-1 training matrix with buffer id 1. -/
def mat1 : SGMatrix := ⟨1, 1, 1, [[0]]⟩

/-- Concrete freshly allocated 1-by-1 matrix, numerically identical to
`mat1` but with a distinct buffer id. -/
def mat1Fresh : SGMatrix := ⟨2, 1, 1, [[0]]⟩

/-- Concrete kernel state. -/
def kern1 : KernelState := ⟨mat1, mat1, none⟩

/-- Witness for C4: at a concrete state, `set_test_data` with a freshly
allocated numerically identical matrix makes the aliasing check false. -/
theorem is_test_equals_train_spec_witness :
    is_test_equals_train_data (set_test_data (baseInit mat1 kern1 1) mat1Fresh) = false :=
  is_test_equals_train_spec.2.2.2 (baseInit mat1 kern1 1) mat1Fresh (by decide)

/-- Claim C9: `set_test_data` modifies only the test matrix and the
right-operand/cache state of the kernel; the training matrix, `lambda`, the
coefficient vector, and the left operand of the kernel are untouched, and the coefficient
vector survives any sequence of `set_test_data`/`reset_test_data` calls. -/
theorem set_test_data_frame :
    (∀ (s : BaseState) (X : SGMatrix),
      (set_test_data s X).m_lhs = s.m_lhs ∧
      (set_test_data s X).m_lambda = s.m_lambda ∧
      (set_test_data s X).m_alpha_beta = s.m_alpha_beta ∧
      (set_test_data s X).m_kernel.klhs = s.m_kernel.klhs ∧
      (set_test_data s X).m_rhs = X ∧
      (set_test_data s X).m_kernel = (s.m_kernel.set_rhs X).precompute) ∧
    (∀ (calls : List TestDataCall) (s : BaseState),
      (applyTestDataCalls calls s).m_lhs = s.m_lhs ∧
      (applyTestDataCalls calls s).m_lambda = s.m_lambda ∧
      (applyTestDataCalls calls s).m_alpha_beta = s.m_alpha_beta) := by
  constructor
  · intro s X
    exact ⟨rfl, rfl, rfl, rfl, rfl, rfl⟩
  · intro calls
    induction calls with
    | nil => intro s; exact ⟨rfl, rfl, rfl⟩
    | cons c rest ih =>
      intro s
      have h := ih (applyTestDataCall s c)
      have hc : (applyTestDataCall s c).m_lhs = s.m_lhs ∧
          (applyTestDataCall s c).m_lambda = s.m_lambda ∧
          (applyTestDataCall s c).m_alpha_beta = s.m_alpha_beta := by
        cases c with
        | setData X => exact ⟨rfl, rfl, rfl⟩
        | reset => exact ⟨rfl, rfl, rfl⟩
      refine ⟨?_, ?_, ?_⟩
      · exact (h.1).trans hc.1
      · exact (h.2.1).trans hc.2.1
      · exact (h.2.2).trans hc.2.2

/-- Follows the words of the spec: the batch `log_pdf()` output is the sequence
`log_pdf(0), ..., log_pdf(N_test - 1)` in test-point order. -/
def specLogPdfList (h : Hooks) (s : BaseState) : List ℚ :=
  (List.range (get_num_rhs s)).map (h.log_pdf_val s)

/-- Concrete fitted estimator state: one dimension, one training point that
is also the test point, coefficient vector already stored. -/
def sFit1 : BaseState :=
  { m_lhs := mat1
    m_rhs := mat1
    m_kernel := ((kern1.set_lhs mat1).set_rhs mat1).precompute
    m_lambda := 1 / 10
    m_alpha_beta := some [1] }

/-- Concrete hooks with constant per-point values. -/
def hooksConst : Hooks :=
  { build_system_val := fun _ => (mat1, [1])
    log_pdf_val := fun _ _ => 3
    grad_val := fun _ _ => [5]
    hessian_diag_val := fun _ _ => [7] }

/-- Claim C6: on a fitted estimator the batch `log_pdf()` returns the vector
of the per-point `log_pdf(i)` values, of length `N_test`, in test-point
order — independent of the (uninitialized) contents `mem` of the freshly
allocated result buffer. -/
theorem log_pdf_batch_spec (h : Hooks) (s : BaseState) (mem : Nat → ℚ)
    (hfit : s.m_alpha_beta.isSome = true) :
    log_pdf_batch h s mem = some (specLogPdfList h s) ∧
    (specLogPdfList h s).length = get_num_rhs s := by
  obtain ⟨ab, hab⟩ := Option.isSome_iff_exists.mp hfit
  constructor
  · have hG : ∀ (buf : List ℚ) (i : Nat),
        log_pdf_batch_step h s buf i = some (buf.set i (h.log_pdf_val s i)) := by
      intro buf i
      unfold log_pdf_batch_step hook_log_pdf
      rw [hab]
      rfl
    unfold log_pdf_batch log_pdf_batch_sched
    rw [optFold_total _ _ hG]
    rw [foldl_set_of_perm _ mem _ _ (List.Perm.refl _)]
    rfl
  · simp [specLogPdfList]

/-- Witness for C6 at the concrete fitted one-point estimator. -/
theorem log_pdf_batch_spec_witness :
    log_pdf_batch hooksConst sFit1 (fun _ => 0) = some (specLogPdfList hooksConst sFit1) ∧
    (specLogPdfList hooksConst sFit1).length = get_num_rhs sFit1 :=
  log_pdf_batch_spec hooksConst sFit1 (fun _ => 0) rfl

/-- Concrete unfit estimator whose test matrix has zero columns. -/
def sEmptyTest : BaseState :=
  { m_lhs := mat1
    m_rhs := ⟨3, 1, 0, []⟩
    m_kernel := kern1
    m_lambda := 1 / 10
    m_alpha_beta := none }

/-- Counterexample to claim C2 as stated: on a never-fitted estimator whose
test set is empty, the evaluation loops run zero iterations, so no per-point
hook (and hence no assertion) ever fires: `log_pdf()` and `grad()` return
empty containers and `objective()` returns the quotient `0 / 0` — values,
not contract failures. -/
theorem density_query_before_fit_returns_value :
    sEmptyTest.m_alpha_beta = none ∧
    get_num_rhs sEmptyTest = 0 ∧
    log_pdf_batch hooksConst sEmptyTest (fun _ => 0) = some [] ∧
    grad_batch hooksConst sEmptyTest (fun _ _ => 0) = some [] ∧
    objective hooksConst sEmptyTest = some ((0 : ℚ) / 0) := by
  exact ⟨rfl, rfl, rfl, rfl, rfl⟩

/-- Claim C2, amended: on a never-fitted estimator with at least one test
point, every density query (`log_pdf()`, `grad()`, `objective()`) hits a
per-point hook, whose precondition assertion fails fast; no value is
returned. -/
theorem density_query_before_fit_fails_fast (h : Hooks) (s : BaseState)
    (memv : Nat → ℚ) (memm : Nat → Nat → ℚ)
    (hunfit : s.m_alpha_beta = none) (hN : 0 < get_num_rhs s) :
    log_pdf_batch h s memv = none ∧
    grad_batch h s memm = none ∧
    objective h s = none := by
  obtain ⟨n, hn⟩ : ∃ n, get_num_rhs s = n + 1 :=
    ⟨get_num_rhs s - 1, by omega⟩
  have hlp : hook_log_pdf h s 0 = none := by
    unfold hook_log_pdf; rw [hunfit]
  have hg : hook_grad h s 0 = none := by
    unfold hook_grad; rw [hunfit]
  refine ⟨?_, ?_, ?_⟩
  · unfold log_pdf_batch log_pdf_batch_sched
    rw [hn, List.range_succ_eq_map, optFold_cons]
    simp only [Option.some_bind, log_pdf_batch_step, hlp, Option.map_none']
    exact optFold_none _ _
  · unfold grad_batch grad_batch_sched
    rw [hn, List.range_succ_eq_map, optFold_cons]
    simp only [Option.some_bind, grad_batch_step, hg, Option.map_none']
    exact optFold_none _ _
  · unfold objective objective_sched
    rw [hn, List.range_succ_eq_map, optFold_cons]
    simp only [Option.some_bind, objective_step, hg, Option.none_bind, Option.map_none']
    rw [optFold_none]
    rfl

/-- Witness for the amended C2: the freshly constructed (never fitted)
one-point estimator rejects all three queries. -/
theorem density_query_before_fit_fails_fast_witness :
    log_pdf_batch hooksConst (baseInit mat1 kern1 (1 / 10)) (fun _ => 0) = none ∧
    grad_batch hooksConst (baseInit mat1 kern1 (1 / 10)) (fun _ _ => 0) = none ∧
    objective hooksConst (baseInit mat1 kern1 (1 / 10)) = none :=
  density_query_before_fit_fails_fast hooksConst (baseInit mat1 kern1 (1 / 10))
    (fun _ => 0) (fun _ _ => 0) rfl (by decide)

/-- Concrete fitted estimator with an empty test set. -/
def sEmptyFit : BaseState :=
  { m_lhs := mat1
    m_rhs := ⟨3, 1, 0, []⟩
    m_kernel := kern1
    m_lambda := 1 / 10
    m_alpha_beta := some [1] }

/-- Claim C10: `objective()` divides the accumulated sum by `N_test` with no
guard; on a fitted estimator with an empty test set it reaches the division
with divisor zero and returns the quotient `0 / 0` (in IEEE `float64_t`,
`NaN`) instead of failing. -/
theorem objective_unguarded_division_by_zero (h : Hooks) (s : BaseState)
    (_hfit : s.m_alpha_beta.isSome = true) (hN : get_num_rhs s = 0) :
    objective h s = some ((0 : ℚ) / 0) ∧ objective h s ≠ none := by
  have h1 : objective h s = some ((0 : ℚ) / 0) := by
    unfold objective objective_sched
    rw [hN]
    rfl
  exact ⟨h1, by rw [h1]; exact Option.some_ne_none _⟩

/-- Witness for C10 at the concrete fitted empty-test estimator. -/
theorem objective_unguarded_division_by_zero_witness :
    objective hooksConst sEmptyFit = some ((0 : ℚ) / 0) ∧
    objective hooksConst sEmptyFit ≠ none :=
  objective_unguarded_division_by_zero hooksConst sEmptyFit rfl rfl

/-- Claim C1 (code bug): in the batch `Base::grad()` the `memcpy` call has
its destination and source swapped — it copies the uninitialized result
column into the per-point gradient temporary, which is then discarded.  On
the concrete fitted one-point estimator whose per-point `grad(0)` is `[5]`
and whose result buffer starts as `[[0]]`, the batch returns `[[0]]`: column
0 is not `grad(0)`. -/
theorem grad_batch_memcpy_swapped :
    grad_batch hooksConst sFit1 (fun _ _ => 0) = some [[(0 : ℚ)]] ∧
    hooksConst.grad_val sFit1 0 = [(5 : ℚ)] ∧
    ([[(0 : ℚ)]] : List (List ℚ)) ≠ [[(5 : ℚ)]] :=
  ⟨rfl, rfl, by decide⟩

/-- Claim C8 (code bug): because the batch `Base::grad()` never writes its
output columns (swapped `memcpy`), its result is exactly the uninitialized
buffer contents; two runs over the same fitted model and test set that start
from different uninitialized memory return different matrices, so `grad()`
is not two-run deterministic. -/
theorem grad_batch_two_runs_differ :
    grad_batch hooksConst sFit1 (fun _ _ => 0) = some [[(0 : ℚ)]] ∧
    grad_batch hooksConst sFit1 (fun _ _ => 1) = some [[(1 : ℚ)]] ∧
    (some [[(0 : ℚ)]] : Option (List (List ℚ))) ≠ some [[(1 : ℚ)]] :=
  ⟨rfl, rfl, by decide⟩

/-- Follows the words of the spec: the per-point objective contribution
`0.5 * norm(grad(i))^2 + sum(hessian_diag(i))`. -/
def specObjectiveTerm (h : Hooks) (s : BaseState) (i : Nat) : ℚ :=
  1 / 2 * sqNorm (h.grad_val s i) + (h.hessian_diag_val s i).sum

/-- Follows the words of the spec: the mean of the per-point objective
contributions over the test points. -/
def specObjectiveMean (h : Hooks) (s : BaseState) : ℚ :=
  (∑ i in Finset.range (get_num_rhs s), specObjectiveTerm h s i) /
    (get_num_rhs s : ℚ)

/-- Claim C3: on a fitted estimator with `N_test ≥ 1` whose per-point hooks
return vectors of length `D`, `objective()` equals the mean over the test
points of `0.5 * norm(grad(i))^2 + sum(hessian_diag(i))`, and the reduction
is order-independent: running the accumulation loop over any permutation of
the test indices (any parallel schedule) gives the same value. -/
theorem objective_eq_mean_of_per_point_terms (h : Hooks) (s : BaseState)
    (sched : List Nat) (hfit : s.m_alpha_beta.isSome = true)
    (_hN : 0 < get_num_rhs s)
    (hD : ∀ i, (h.grad_val s i).length = get_num_dimensions s)
    (hH : ∀ i, (h.hessian_diag_val s i).length = get_num_dimensions s)
    (hperm : sched.Perm (List.range (get_num_rhs s))) :
    objective h s = some (specObjectiveMean h s) ∧
    objective_sched h s sched = objective h s := by
  obtain ⟨ab, hab⟩ := Option.isSome_iff_exists.mp hfit
  have hstep : ∀ (acc : ℚ) (i : Nat),
      objective_step h s acc i = some (acc + specObjectiveTerm h s i) := by
    intro acc i
    unfold objective_step hook_grad hook_hessian_diag
    rw [hab]
    have ht1 : (h.grad_val s i).take (get_num_dimensions s) = h.grad_val s i := by
      rw [← hD i, List.take_length]
    have ht2 : (h.hessian_diag_val s i).take (get_num_dimensions s) =
        h.hessian_diag_val s i := by
      rw [← hH i, List.take_length]
    simp [specObjectiveTerm, ht1, ht2, add_assoc]
  have hfold : ∀ l : List Nat,
      optFold (objective_step h s) l (some 0) =
        some ((l.map (specObjectiveTerm h s)).sum) := by
    intro l
    rw [optFold_total _ _ hstep, foldl_add_eq_sum]
    simp
  have hmain : objective h s = some (specObjectiveMean h s) := by
    unfold objective objective_sched specObjectiveMean
    rw [hfold, sum_map_range_eq]
    rfl
  refine ⟨hmain, ?_⟩
  have hsum : (sched.map (specObjectiveTerm h s)).sum =
      (((List.range (get_num_rhs s))).map (specObjectiveTerm h s)).sum :=
    (hperm.map (specObjectiveTerm h s)).sum_eq
  unfold objective objective_sched
  rw [hfold, hfold, hsum]

/-- Witness for C3 at the concrete fitted one-point estimator, with the
singleton schedule. -/
theorem objective_eq_mean_of_per_point_terms_witness :
    objective hooksConst sFit1 = some (specObjectiveMean hooksConst sFit1) ∧
    objective_sched hooksConst sFit1 [0] = objective hooksConst sFit1 :=
  objective_eq_mean_of_per_point_terms hooksConst sFit1 [0] rfl (by decide)
    (fun _ => rfl) (fun _ => rfl) (by decide)

/-- Claim C5: `fit()` hands the assembled system `(A, b)` to the solver —
modelled from the spec, since the Eigen thin-SVD solve is external code, as
a function assumed to return the minimum-norm least-squares solution — and
stores the result as `m_alpha_beta`; when `fit()` returns, the stored vector
is that solution and its length is the length of `b`, the system size
declared by the assembler. -/
theorem fit_stores_min_norm_least_squares
    (solver : SGMatrix → List ℚ → List ℚ) (h : Hooks) (s : BaseState)
    (A : SGMatrix) (b : List ℚ) (s2 : BaseState)
    (hAb : h.build_system_val s = (A, b))
    (hsol : IsMinNormLeastSquaresSol A b (solver A b))
    (hfit : fit solver h s = some s2) :
    s2.m_alpha_beta = some (solver A b) ∧
    (solver A b).length = b.length ∧
    IsMinNormLeastSquaresSol A b (solver A b) := by
  simp only [fit, solve_and_store, hAb] at hfit
  split at hfit
  case isTrue hlen =>
    have hs2 := Option.some.inj hfit
    refine ⟨?_, hlen, hsol⟩
    rw [← hs2]
  case isFalse =>
    exact absurd hfit (by simp)

/-- Concrete 1-by-1 system matrix (the identity) with its own buffer. -/
def A0 : SGMatrix := ⟨4, 1, 1, [[1]]⟩

/-- Concrete right-hand side. -/
def b0 : List ℚ := [2]

/-- Concrete solver: on the 1-by-1 identity system it returns `b` itself,
which is the exact (hence minimum-norm least-squares) solution. -/
def solver0 : SGMatrix → List ℚ → List ℚ := fun _ b => b

/-- Concrete hooks whose assembled system is `(A0, b0)`. -/
def hooks5 : Hooks :=
  { build_system_val := fun _ => (A0, b0)
    log_pdf_val := fun _ _ => 3
    grad_val := fun _ _ => [5]
    hessian_diag_val := fun _ _ => [7] }

/-- Concrete never-fitted estimator. -/
def s0 : BaseState := baseInit mat1 kern1 (1 / 10)

/-- The state `fit solver0 hooks5 s0` produces. -/
def s0fit : BaseState :=
  { m_lhs := mat1
    m_rhs := mat1
    m_kernel := ((kern1.set_lhs mat1).set_rhs mat1).precompute
    m_lambda := 1 / 10
    m_alpha_beta := some b0 }

theorem residualSq_nonneg (A : SGMatrix) (b x : List ℚ) :
    0 ≤ residualSq A b x := sqNorm_nonneg _

theorem solver0_min_norm : IsMinNormLeastSquaresSol A0 b0 (solver0 A0 b0) := by
  have hres0 : residualSq A0 b0 (solver0 A0 b0) = 0 := by
    norm_num [residualSq, sqNorm, subv, mulVec, A0, b0, solver0, List.range_succ]
  have hls : IsLeastSquaresSol A0 b0 (solver0 A0 b0) := by
    refine ⟨by decide, ?_⟩
    intro y hy
    rw [hres0]
    exact residualSq_nonneg A0 b0 y
  refine ⟨hls, ?_⟩
  intro y hy
  obtain ⟨hylen, hymin⟩ := hy
  have hle : residualSq A0 b0 y ≤ 0 := by
    have := hymin (solver0 A0 b0) (by decide)
    rwa [hres0] at this
  have hz : residualSq A0 b0 y = 0 :=
    le_antisymm hle (residualSq_nonneg A0 b0 y)
  cases y with
  | nil => simp [A0] at hylen
  | cons a t =>
    cases t with
    | cons c t2 => simp [A0] at hylen
    | nil =>
      have hval : residualSq A0 b0 [a] = (a - 2) * (a - 2) := by
        simp [residualSq, sqNorm, subv, mulVec, A0, b0, List.range_succ]
      rw [hval] at hz
      have ha2 : a = 2 := by
        have hh := mul_self_eq_zero.mp hz
        linarith
      subst ha2
      exact le_refl _

/-- Witness for C5: fitting the concrete estimator stores the
solution of the concrete 1-by-1 system, of the right length, and that
solution is the minimum-norm least-squares one. -/
theorem fit_stores_min_norm_least_squares_witness :
    s0fit.m_alpha_beta = some (solver0 A0 b0) ∧
    (solver0 A0 b0).length = b0.length ∧
    IsMinNormLeastSquaresSol A0 b0 (solver0 A0 b0) :=
  fit_stores_min_norm_least_squares solver0 hooks5 s0 A0 b0 s0fit rfl
    solver0_min_norm rfl

/-- Claim C7: `reset_test_data()` is literally `set_test_data(m_lhs)` and
restores `m_rhs = m_lhs`; moreover, on an estimator that was constructed and
fitted, setting any test matrix and then resetting returns the estimator to
the exact state it had when test data was never set, so the subsequent batch
`log_pdf()` values coincide. -/
theorem reset_test_data_restores_train_as_test :
    (∀ s : BaseState, reset_test_data s = set_test_data s s.m_lhs) ∧
    (∀ s : BaseState, (reset_test_data s).m_rhs = s.m_lhs) ∧
    (∀ (data : SGMatrix) (kernel : KernelState) (lambda : ℚ)
        (solver : SGMatrix → List ℚ → List ℚ) (h : Hooks) (s2 : BaseState)
        (X : SGMatrix) (mem : Nat → ℚ),
      fit solver h (baseInit data kernel lambda) = some s2 →
      log_pdf_batch h (reset_test_data (set_test_data s2 X)) mem =
        log_pdf_batch h s2 mem) := by
  refine ⟨fun s => rfl, fun s => rfl, ?_⟩
  intro data kernel lambda solver h s2 X mem hfit
  simp only [fit, solve_and_store] at hfit
  split at hfit
  case isTrue hlen =>
    have hs2 := Option.some.inj hfit
    have hre : reset_test_data (set_test_data s2 X) = s2 := by
      rw [← hs2]
      rfl
    rw [hre]
  case isFalse =>
    exact absurd hfit (by simp)

/-- Witness for C7: on the concrete fitted estimator, setting a fresh test
matrix and resetting gives the same batch `log_pdf()` as never setting. -/
theorem reset_test_data_restores_train_as_test_witness :
    log_pdf_batch hooks5 (reset_test_data (set_test_data s0fit mat1Fresh))
        (fun _ => 0) =
      log_pdf_batch hooks5 s0fit (fun _ => 0) :=
  reset_test_data_restores_train_as_test.2.2 mat1 kern1 (1 / 10) solver0
    hooks5 s0fit mat1Fresh (fun _ => 0) rfl

end KernelExpFamilyImpl
